import Mathlib

/-!
Verification development for the NYC urban mobility data pipeline.

Shallow embedding of the cleaning / feature-derivation / load code:
Python floats are modelled as exact rationals (ℚ); nullable float cells
are modelled by the inductive `Val` (null, NaN, or a number); Python
`datetime` objects are modelled by their hour and weekday fields, which
is all the embedded code reads; `round(x, 2)` is modelled by `round2`.
The statistical code takes a real square root, so standard deviations
and z-scores live in ℝ.
-/

/-- A Python cell value as seen by the cleaning code: `None`, a float
`nan`, or an ordinary numeric value (modelled exactly as a rational). -/
inductive Val where
  | null : Val
  | nan : Val
  | num : ℚ → Val
deriving DecidableEq

/-- Python `round(x, 2)`: round to two decimal places.  (Mathlib `round`
rounds halves up while Python rounds halves to even; the two agree off
exact half-cent values, and every claim below uses `round2` uniformly on
both sides, so the tie-breaking convention never matters.) -/
def round2 (q : ℚ) : ℚ := (round (q * 100) : ℤ) / 100

/-- Python `int()` applied to a float: truncation toward zero. -/
def pyTrunc (q : ℚ) : ℤ := if 0 ≤ q then ⌊q⌋ else ⌈q⌉

/-- The fields of a Python `datetime` that the embedded code reads:
`.hour` (0–23) and `.weekday()` (0 = Monday … 6 = Sunday). -/
structure PyDateTime where
  hour : Fin 24
  weekday : Fin 7
deriving DecidableEq

namespace PopulateDb

/-- `calculate_tip_percentage` from `database/populate-db.py`:
returns 0.0 if `fare_amount <= 0`, else `round(tip/fare*100, 2)`. -/
def calculate_tip_percentage (tip_amount fare_amount : ℚ) : ℚ :=
  if fare_amount ≤ 0 then 0
  else round2 (tip_amount / fare_amount * 100)

/-- `calculate_trip_duration` from `database/populate-db.py`: timestamps
are modelled by their epoch seconds; the function returns
`round(max(0, (dropoff - pickup).total_seconds() / 60), 2)`. -/
def calculate_trip_duration (pickup dropoff : ℚ) : ℚ :=
  round2 (max 0 ((dropoff - pickup) / 60))

/-- `get_time_of_day` from `database/populate-db.py` (4-bucket scheme). -/
def get_time_of_day (pickup : PyDateTime) : String :=
  let hour := (pickup.hour : ℕ)
  if 6 ≤ hour ∧ hour < 12 then "Morning"
  else if 12 ≤ hour ∧ hour < 17 then "Afternoon"
  else if 17 ≤ hour ∧ hour < 21 then "Evening"
  else "Night"

/-- `calculate_speed` from `database/populate-db.py`: 0.0 if
`duration_minutes <= 0`, else `round(min(distance/duration_hours, 200), 2)`. -/
def calculate_speed (distance duration_minutes : ℚ) : ℚ :=
  if duration_minutes ≤ 0 then 0
  else
    let duration_hours := duration_minutes / 60
    round2 (min (distance / duration_hours) 200)

/-- `get_day_type` from `database/populate-db.py`. -/
def get_day_type (pickup : PyDateTime) : String :=
  if 5 ≤ (pickup.weekday : ℕ) then "Weekend" else "Weekday"

end PopulateDb

namespace FeatureEngineer

/-- `FeatureEngineer.calculate_tip_percentage` from
`src/feature_engineering.py`: 0.0 if fare is None or `<= 0`, 0.0 if tip
is None or negative, else `round(tip/fare*100, 2)`. -/
def calculate_tip_percentage (tip_amount fare_amount : Option ℚ) : ℚ :=
  match fare_amount with
  | none => 0
  | some fare =>
    if fare ≤ 0 then 0
    else
      match tip_amount with
      | none => 0
      | some tip => if tip < 0 then 0 else round2 (tip / fare * 100)

/-- `FeatureEngineer.calculate_trip_duration_minutes` from
`src/feature_engineering.py`: None if either timestamp is None, None if
the interval is non-positive, else `round(duration_seconds/60, 2)`. -/
def calculate_trip_duration_minutes (pickup dropoff : Option ℚ) : Option ℚ :=
  match pickup, dropoff with
  | none, _ => none
  | _, none => none
  | some p, some d =>
    let duration_seconds := d - p
    if duration_seconds ≤ 0 then none
    else some (round2 (duration_seconds / 60))

/-- `FeatureEngineer.categorize_time_of_day` from
`src/feature_engineering.py` (5-bucket scheme). -/
def categorize_time_of_day (pickup : Option PyDateTime) : String :=
  match pickup with
  | none => "Unknown"
  | some dt =>
    let hour := (dt.hour : ℕ)
    if 0 ≤ hour ∧ hour < 5 then "Early Morning"
    else if 5 ≤ hour ∧ hour < 10 then "Morning Rush"
    else if 10 ≤ hour ∧ hour < 16 then "Midday"
    else if 16 ≤ hour ∧ hour < 20 then "Evening Rush"
    else if 20 ≤ hour ∧ hour < 24 then "Night"
    else "Unknown"

/-- `FeatureEngineer.calculate_trip_speed_mph` from
`src/feature_engineering.py`: None if distance is None or `<= 0`, None
if duration is None or `<= 0`, else `round((distance/duration)*60, 2)`.
Note: this variant applies no speed cap. -/
def calculate_trip_speed_mph (trip_distance trip_duration_minutes : Option ℚ) :
    Option ℚ :=
  match trip_distance with
  | none => none
  | some d =>
    if d ≤ 0 then none
    else
      match trip_duration_minutes with
      | none => none
      | some m => if m ≤ 0 then none else some (round2 (d / m * 60))

/-- `FeatureEngineer.categorize_day_type` from
`src/feature_engineering.py`: "Unknown" on a missing pickup, "Weekend"
when `.weekday()` is 5 or 6, else "Weekday". -/
def categorize_day_type (pickup : Option PyDateTime) : String :=
  match pickup with
  | none => "Unknown"
  | some dt =>
    if (dt.weekday : ℕ) = 5 ∨ (dt.weekday : ℕ) = 6 then "Weekend"
    else "Weekday"

end FeatureEngineer

namespace ManualAlgorithm

/-- Whether a cell survives the null/NaN guard
`value is not None and not math.isnan(float(value))`. -/
def Val.isValid : Val → Bool
  | Val.num _ => true
  | _ => false

/-- The running `count` accumulated by the loops of `calculate_mean` and
`calculate_std_dev`: the number of non-null non-NaN cells. -/
def countValid (values : List Val) : ℕ :=
  (values.filter Val.isValid).length

/-- The running `total` accumulated by the loop of `calculate_mean`. -/
def sumValid (values : List Val) : ℚ :=
  (values.foldl (fun acc v => match v with
    | Val.num q => acc + q
    | _ => acc) 0)

/-- The running `squared_diffs` accumulated by the loop of
`calculate_std_dev`. -/
def squaredDiffs (values : List Val) (mean : ℚ) : ℚ :=
  (values.foldl (fun acc v => match v with
    | Val.num q => acc + (q - mean) * (q - mean)
    | _ => acc) 0)

/-- `ManualOutlierDetector.calculate_mean` from `src/manual_algorithm.py`:
0.0 on an empty list; otherwise the sum of the valid values divided by
their count, or 0.0 when no value is valid. -/
def calculate_mean (values : List Val) : ℚ :=
  if values = [] then 0
  else if 0 < countValid values then sumValid values / countValid values
  else 0

/-- `ManualOutlierDetector.calculate_std_dev` from
`src/manual_algorithm.py`: 0.0 when the list has fewer than two entries
or fewer than two valid entries; otherwise
`sqrt(squared_diffs / (count - 1))` with `count` the valid-entry count. -/
noncomputable def calculate_std_dev (values : List Val) (mean : ℚ) : ℝ :=
  if values = [] ∨ values.length < 2 then 0
  else if countValid values < 2 then 0
  else Real.sqrt ((squaredDiffs values mean / (countValid values - 1 : ℕ) : ℚ) : ℝ)

/-- `ManualOutlierDetector.calculate_z_score` from
`src/manual_algorithm.py`: 0.0 when `std_dev == 0`, else
`(value - mean) / std_dev`. -/
noncomputable def calculate_z_score (value mean : ℚ) (std_dev : ℝ) : ℝ :=
  if std_dev = 0 then 0 else ((value : ℝ) - (mean : ℝ)) / std_dev

/-- `round(x, 2)` applied to the real-valued z-score / std-dev fields of
an outlier-audit entry. -/
noncomputable def round2R (x : ℝ) : ℝ := (round (x * 100) : ℤ) / 100

/-- One entry of the per-column statistics dictionary `self.stats`. -/
structure ColStats where
  mean : ℚ
  std_dev : ℝ
  threshold : ℚ

/-- The mutable state of a `ManualOutlierDetector` instance:
`self.threshold` (set once in `__init__`) and the `self.stats`
dictionary that `detect_outliers` writes into across calls. -/
structure DetectorState where
  threshold : ℚ
  stats : String → Option ColStats

/-- One audit entry appended to `outlier_rows[idx]` by
`detect_outliers`: column name, raw value, and rounded z-score / mean /
std-dev. -/
structure FlagEntry where
  column : String
  value : ℚ
  z_score : ℝ
  mean : ℚ
  std_dev : ℝ

open Classical in
/-- The audit entries that one column pass of `detect_outliers`
contributes at row index `idx`: if the cell is present, non-null and
non-NaN and its z-score exceeds the threshold in absolute value, one
entry is appended; otherwise none. -/
noncomputable def columnEntries (threshold : ℚ) (col : String) (values : List Val)
    (mean : ℚ) (std : ℝ) (idx : ℕ) : List FlagEntry :=
  match values[idx]? with
  | some (Val.num v) =>
    let z := calculate_z_score v mean std
    if |z| > (threshold : ℝ) then
      [⟨col, v, round2R z, round2 mean, round2R std⟩]
    else []
  | _ => []

/-- State transition of `detect_outliers` for a single monitored column:
columns absent from `data_dict` are skipped; otherwise the column mean
and sample standard deviation are computed, `self.stats[col]` is
overwritten, and the flagged audit entries of the column are appended to
`outlier_rows`.  The outlier mapping is modelled as a function from row
index to the accumulated entry list (Python dict equality is exactly
pointwise equality of that function). -/
noncomputable def detectStep (threshold : ℚ) (data : String → Option (List Val))
    (acc : (ℕ → List FlagEntry) × DetectorState) (col : String) :
    (ℕ → List FlagEntry) × DetectorState :=
  match data col with
  | none => acc
  | some values =>
    let mean := calculate_mean values
    let std := calculate_std_dev values mean
    let st := acc.2
    ( fun idx => acc.1 idx ++ columnEntries threshold col values mean std idx,
      { st with stats := fun c =>
          if c = col then some ⟨mean, std, threshold⟩ else st.stats c } )

/-- `ManualOutlierDetector.detect_outliers` from
`src/manual_algorithm.py`: iterates over the monitored columns, updating
`self.stats` and accumulating the outlier mapping; returns the mapping
together with the instance state after the call. -/
noncomputable def detect_outliers (st : DetectorState)
    (data : String → Option (List Val)) (columns : List String) :
    (ℕ → List FlagEntry) × DetectorState :=
  columns.foldl (detectStep st.threshold data) (fun _ => [], st)

/-- Proof-support unfolding of the column loop of `detect_outliers`:
the audit entries that the passes over a column list contribute at row
index `idx`, in column order.  Related to `detect_outliers` by
`detect_outliers_apply` below. -/
noncomputable def colsEntries (threshold : ℚ) (data : String → Option (List Val))
    (cols : List String) (idx : ℕ) : List FlagEntry :=
  match cols with
  | [] => []
  | col :: rest =>
    (match data col with
     | none => []
     | some values =>
       columnEntries threshold col values (calculate_mean values)
         (calculate_std_dev values (calculate_mean values)) idx) ++
      colsEntries threshold data rest idx

/-- `ManualDataValidator.is_valid_passenger_count` from
`src/manual_algorithm.py`: rejects null/NaN, truncates the value with
`int()`, and rejects when the truncation lies outside `[1, 6]`. -/
def is_valid_passenger_count (passenger_count : Val) : Bool :=
  match passenger_count with
  | Val.null => false
  | Val.nan => false
  | Val.num q =>
    let count := pyTrunc q
    if count < 1 ∨ count > 6 then false else true

end ManualAlgorithm

namespace PopulateDb

/-- The observable state of the Step 3 trip-ingestion loop of
`database/populate-db.py`: the in-memory `batch_data` buffer, the
`total_inserted` running count, and the rows committed to the `trips`
relation.  The row payload is abstracted by a type parameter; a raw CSV
row is modelled as `Option α` — `some` when the per-row field parsing
succeeds and `none` when it raises (the `except` arm). -/
structure IngestState (α : Type) where
  batch_data : List α
  total_inserted : ℕ
  inserted : List α
deriving DecidableEq

/-- One iteration of the Step 3 `for row in reader` loop: a row whose
parsing raises is skipped by `continue`; a parsed row is appended to
`batch_data`, and a full batch is bulk-inserted and committed. -/
def ingestStep (batch_size : ℕ) (st : IngestState α) (row : Option α) :
    IngestState α :=
  match row with
  | none => st
  | some t =>
    let batch := st.batch_data ++ [t]
    if batch_size ≤ batch.length then
      { batch_data := [],
        total_inserted := st.total_inserted + batch.length,
        inserted := st.inserted ++ batch }
    else
      { st with batch_data := batch }

/-- The Step 3 ingestion loop of `database/populate-db.py`: folds
`ingestStep` over the raw rows and then flushes the remaining partial
batch (`if batch_data:` after the loop). -/
def ingestLoop (batch_size : ℕ) (rows : List (Option α)) : IngestState α :=
  let st := rows.foldl (ingestStep batch_size) ⟨[], 0, []⟩
  if st.batch_data.isEmpty then st
  else
    { batch_data := [],
      total_inserted := st.total_inserted + st.batch_data.length,
      inserted := st.inserted ++ st.batch_data }

/-- The page returned by
`SELECT ... FROM trips ORDER BY trip_id LIMIT batch_size OFFSET offset`
over a stable persisted relation, modelled as the ordered list of its
rows. -/
def fetchPage (trips : List ℕ) (batch_size offset : ℕ) : List ℕ :=
  (trips.drop offset).take batch_size

/-- The Step 4 derived-feature backfill loop of
`database/populate-db.py`, recorded as the sequence of pages it fetches:
`while offset < trip_count` guards each fetch; an empty page triggers
the `break` (recorded as a final empty page); otherwise the loop
processes the page and advances `offset` by `batch_size`.  `trip_count`
is the `SELECT COUNT(*)` value read before the loop, i.e.
`trips.length` for a stable relation. -/
def backfillPages (trips : List ℕ) (batch_size : ℕ) (offset : ℕ) :
    List (List ℕ) :=
  if h : offset < trips.length then
    if hp : fetchPage trips batch_size offset = [] then [[]]
    else
      have hb : 0 < batch_size := by
        rcases Nat.eq_zero_or_pos batch_size with h0 | h1
        · exact absurd (by simp [fetchPage, h0]) hp
        · exact h1
      fetchPage trips batch_size offset ::
        backfillPages trips batch_size (offset + batch_size)
  else []
termination_by trips.length - offset
decreasing_by omega

end PopulateDb

/-! ## Helper lemmas about `round2` -/

theorem round2_mono {a b : ℚ} (h : a ≤ b) : round2 a ≤ round2 b := by
  unfold round2
  have h1 : round (a * 100) ≤ round (b * 100) := by
    rw [round_eq, round_eq]
    exact Int.floor_le_floor (by linarith)
  have h2 : ((round (a * 100) : ℤ) : ℚ) ≤ ((round (b * 100) : ℤ) : ℚ) :=
    Int.cast_le.mpr h1
  linarith

theorem round2_zero : round2 0 = 0 := by
  unfold round2
  norm_num

theorem round2_nonneg {q : ℚ} (h : 0 ≤ q) : 0 ≤ round2 q := by
  have h1 := round2_mono h
  rwa [round2_zero] at h1

theorem round2_two_hundred : round2 200 = 200 := by
  unfold round2
  have h1 : ((200 : ℚ)) * 100 = ((20000 : ℤ) : ℚ) := by norm_num
  rw [h1, round_intCast]
  norm_num

theorem round2_le_two_hundred {q : ℚ} (h : q ≤ 200) : round2 q ≤ 200 := by
  have h1 := round2_mono h
  rwa [round2_two_hundred] at h1

/-! ## C3: derived trip speed -/

/-- C3 counterexample: `FeatureEngineer.calculate_trip_speed_mph` applies
no 200-mph cap — a 100-mile trip of 1 minute yields 6000 mph, exceeding
the configured maximum plausible speed, contradicting the claim that the
derived speed never exceeds 200 for every distance and duration. -/
theorem C3_counterexample :
    FeatureEngineer.calculate_trip_speed_mph (some 100) (some 1) =
      some 6000 ∧ ¬((6000 : ℚ) ≤ 200) := by
  constructor
  · show (if (100 : ℚ) ≤ 0 then none
      else if (1 : ℚ) ≤ 0 then none else some (round2 (100 / 1 * 60))) = some 6000
    norm_num [round2, round_eq]
  · norm_num

/-- C3 (amended): `calculate_speed` in `populate-db.py` equals the
rounded, 200-capped `distance / duration_hours` and never exceeds 200,
and returns 0 when duration ≤ 0; the `FeatureEngineer` variant applies
no cap — it returns `round2 (distance / duration × 60)` for positive
inputs and `none` (not 0) when either input is missing or ≤ 0. -/
theorem C3_amended_speed (distance duration_minutes : ℚ) (d m : ℚ)
    (om : Option ℚ) :
    (duration_minutes ≤ 0 →
      PopulateDb.calculate_speed distance duration_minutes = 0) ∧
    (0 < duration_minutes →
      PopulateDb.calculate_speed distance duration_minutes =
        round2 (min (distance / (duration_minutes / 60)) 200)) ∧
    PopulateDb.calculate_speed distance duration_minutes ≤ 200 ∧
    (0 < d → 0 < m →
      FeatureEngineer.calculate_trip_speed_mph (some d) (some m) =
        some (round2 (d / m * 60))) ∧
    (m ≤ 0 → FeatureEngineer.calculate_trip_speed_mph (some d) (some m) = none) ∧
    FeatureEngineer.calculate_trip_speed_mph none om = none ∧
    FeatureEngineer.calculate_trip_speed_mph (some d) none = none := by
  refine ⟨?_, ?_, ?_, ?_, ?_, rfl, ?_⟩
  · intro h
    simp [PopulateDb.calculate_speed, h]
  · intro h
    simp [PopulateDb.calculate_speed, not_le.mpr h]
  · by_cases h : duration_minutes ≤ 0
    · simp [PopulateDb.calculate_speed, h]
    · simp only [PopulateDb.calculate_speed, h, if_false]
      exact round2_le_two_hundred (min_le_right _ _)
  · intro hd hm
    have h1 : (d / m) * 60 = d / (m / 60) := by
      field_simp
    simp [FeatureEngineer.calculate_trip_speed_mph, not_le.mpr hd, not_le.mpr hm]
  · intro hm
    by_cases hd : d ≤ 0 <;>
      simp [FeatureEngineer.calculate_trip_speed_mph, hd, hm]
  · by_cases hd : d ≤ 0 <;>
      simp [FeatureEngineer.calculate_trip_speed_mph, hd]

/-- C3 witness: the amended speed theorem at distance 1, duration 60. -/
theorem C3_amended_speed_witness :
    (0 : ℚ) < 60 ∧
    PopulateDb.calculate_speed 1 60 = round2 (min (1 / (60 / 60)) 200) ∧
    PopulateDb.calculate_speed 1 60 ≤ 200 ∧
    FeatureEngineer.calculate_trip_speed_mph (some 1) (some 1) =
      some (round2 (1 / 1 * 60)) :=
  ⟨by norm_num,
   (C3_amended_speed 1 60 1 1 none).2.1 (by norm_num),
   (C3_amended_speed 1 60 1 1 none).2.2.1,
   (C3_amended_speed 1 60 1 1 none).2.2.2.1 (by norm_num) (by norm_num)⟩

/-! ## C4: derived trip duration -/

/-- C4 counterexample: with both timestamps present and equal (a
non-positive interval), `FeatureEngineer.calculate_trip_duration_minutes`
returns `none`, not the claimed floored value 0 — so the result is null
even though neither timestamp is missing. -/
theorem C4_counterexample :
    FeatureEngineer.calculate_trip_duration_minutes (some 0) (some 0) = none ∧
    (none : Option ℚ) ≠ some 0 := by
  constructor
  · simp [FeatureEngineer.calculate_trip_duration_minutes]
  · simp

/-- C4 (amended): `calculate_trip_duration` in `populate-db.py` equals
`round2 (max 0 (seconds/60))` — floored at 0, hence never negative, and
0 on a non-positive interval (it requires both timestamps present); the
`FeatureEngineer` variant instead returns null exactly when either
timestamp is missing OR the interval is non-positive, and
`round2 (seconds/60)` on a positive interval. -/
theorem C4_amended_duration (p d : ℚ) (po dp : Option ℚ) :
    PopulateDb.calculate_trip_duration p d = round2 (max 0 ((d - p) / 60)) ∧
    0 ≤ PopulateDb.calculate_trip_duration p d ∧
    (d - p ≤ 0 → PopulateDb.calculate_trip_duration p d = 0) ∧
    (FeatureEngineer.calculate_trip_duration_minutes po dp = none ↔
      po = none ∨ dp = none ∨
        ∃ pv dv, po = some pv ∧ dp = some dv ∧ dv - pv ≤ 0) ∧
    (∀ pv dv, po = some pv → dp = some dv → 0 < dv - pv →
      FeatureEngineer.calculate_trip_duration_minutes po dp =
        some (round2 ((dv - pv) / 60))) := by
  refine ⟨rfl, ?_, ?_, ?_, ?_⟩
  · exact round2_nonneg (le_max_left 0 _)
  · intro h
    have h1 : (d - p) / 60 ≤ 0 := by linarith
    unfold PopulateDb.calculate_trip_duration
    rw [max_eq_left h1, round2_zero]
  · cases po with
    | none => simp [FeatureEngineer.calculate_trip_duration_minutes]
    | some pv =>
      cases dp with
      | none => simp [FeatureEngineer.calculate_trip_duration_minutes]
      | some dv =>
        by_cases h : dv - pv ≤ 0 <;>
          simp [FeatureEngineer.calculate_trip_duration_minutes, h] <;> linarith
  · intro pv dv hp hd hpos
    subst hp; subst hd
    simp [FeatureEngineer.calculate_trip_duration_minutes, not_le.mpr hpos]

/-- C4 witness: the amended duration theorem at pickup 0s, dropoff 60s. -/
theorem C4_amended_duration_witness :
    (0 : ℚ) < 60 - 0 ∧
    FeatureEngineer.calculate_trip_duration_minutes (some 0) (some 60) =
      some (round2 ((60 - 0) / 60)) ∧
    0 ≤ PopulateDb.calculate_trip_duration 0 60 :=
  ⟨by norm_num,
   (C4_amended_duration 0 60 (some 0) (some 60)).2.2.2.2 0 60 rfl rfl (by norm_num),
   (C4_amended_duration 0 60 (some 0) (some 60)).2.1⟩

/-! ## C5: derived tip percentage -/

/-- C5 counterexample: `calculate_tip_percentage` in `populate-db.py`
performs no tip-validity check — a negative tip of −1 on a fare of 10
yields −10.0, not the claimed 0.0. -/
theorem C5_counterexample :
    PopulateDb.calculate_tip_percentage (-1) 10 = -10 ∧ ((-10 : ℚ) ≠ 0) := by
  constructor
  · show (if (10 : ℚ) ≤ 0 then 0 else round2 ((-1) / 10 * 100)) = -10
    norm_num [round2, round_eq]
  · norm_num

/-- C5 (amended): `FeatureEngineer.calculate_tip_percentage` satisfies
the claim in full — 0.0 whenever the fare is missing or ≤ 0 or the tip
is missing or negative, else `round2 (tip/fare × 100)`, never raising;
the `populate-db.py` variant checks only `fare ≤ 0` and returns
`round2 (tip/fare × 100)` for every tip (a negative tip yields a
negative percentage). -/
theorem C5_amended_tip (tip fare : Option ℚ) (t f : ℚ) :
    (fare = none → FeatureEngineer.calculate_tip_percentage tip fare = 0) ∧
    (∀ fv, fare = some fv → fv ≤ 0 →
      FeatureEngineer.calculate_tip_percentage tip fare = 0) ∧
    (tip = none → FeatureEngineer.calculate_tip_percentage tip fare = 0) ∧
    (∀ tv, tip = some tv → tv < 0 →
      FeatureEngineer.calculate_tip_percentage tip fare = 0) ∧
    (∀ tv fv, tip = some tv → fare = some fv → 0 < fv → 0 ≤ tv →
      FeatureEngineer.calculate_tip_percentage tip fare =
        round2 (tv / fv * 100)) ∧
    (f ≤ 0 → PopulateDb.calculate_tip_percentage t f = 0) ∧
    (0 < f → PopulateDb.calculate_tip_percentage t f = round2 (t / f * 100)) := by
  refine ⟨?_, ?_, ?_, ?_, ?_, ?_, ?_⟩
  · intro h; subst h; rfl
  · intro fv hf hfv; subst hf
    simp [FeatureEngineer.calculate_tip_percentage, hfv]
  · intro h; subst h
    cases fare with
    | none => rfl
    | some fv =>
      by_cases hfv : fv ≤ 0 <;> simp [FeatureEngineer.calculate_tip_percentage, hfv]
  · intro tv ht htv; subst ht
    cases fare with
    | none => rfl
    | some fv =>
      by_cases hfv : fv ≤ 0 <;>
        simp [FeatureEngineer.calculate_tip_percentage, hfv, htv]
  · intro tv fv ht hf hfv htv; subst ht; subst hf
    simp [FeatureEngineer.calculate_tip_percentage, not_le.mpr hfv, not_lt.mpr htv]
  · intro h; simp [PopulateDb.calculate_tip_percentage, h]
  · intro h; simp [PopulateDb.calculate_tip_percentage, not_le.mpr h]

/-- C5 witness: the amended tip-percentage theorem at tip 2, fare 10. -/
theorem C5_amended_tip_witness :
    (0 : ℚ) < 10 ∧ (0 : ℚ) ≤ 2 ∧
    FeatureEngineer.calculate_tip_percentage (some 2) (some 10) =
      round2 (2 / 10 * 100) ∧
    PopulateDb.calculate_tip_percentage 2 10 = round2 (2 / 10 * 100) :=
  ⟨by norm_num, by norm_num,
   (C5_amended_tip (some 2) (some 10) 2 10).2.2.2.2.1 2 10 rfl rfl
     (by norm_num) (by norm_num),
   (C5_amended_tip (some 2) (some 10) 2 10).2.2.2.2.2.2 (by norm_num)⟩

/-! ## C7: passenger-count validation -/

/-- C7 counterexample: `is_valid_passenger_count` truncates with
`int()` before range-checking, so the non-integer passenger count 5/2
(= 2.5) is accepted, contradicting the claim that any non-integer
passenger count is rejected. -/
theorem C7_counterexample :
    ManualAlgorithm.is_valid_passenger_count (Val.num (5 / 2)) = true ∧
    ((5 / 2 : ℚ).den ≠ 1) := by
  constructor
  · show (if pyTrunc (5 / 2) < 1 ∨ pyTrunc (5 / 2) > 6 then false else true) = true
    norm_num [pyTrunc]
  · norm_num

/-- C7 (amended): the passenger-count rule accepts a record iff its
passenger_count is present, non-NaN, and its `int()` truncation toward
zero lies in the closed interval [1, 6]; non-integer counts whose
truncation lies in [1, 6] are therefore accepted. -/
theorem C7_amended_passenger (v : Val) :
    ManualAlgorithm.is_valid_passenger_count v = true ↔
      ∃ q : ℚ, v = Val.num q ∧ 1 ≤ pyTrunc q ∧ pyTrunc q ≤ 6 := by
  cases v with
  | null => simp [ManualAlgorithm.is_valid_passenger_count]
  | nan => simp [ManualAlgorithm.is_valid_passenger_count]
  | num q =>
    show (if pyTrunc q < 1 ∨ pyTrunc q > 6 then false else true) = true ↔ _
    split_ifs with h
    · simp only [Bool.false_eq_true, false_iff]
      rintro ⟨q', hq', h1, h6⟩
      obtain rfl : q = q' := by injection hq'
      omega
    · push_neg at h
      simp only [true_iff]
      exact ⟨q, rfl, by omega, by omega⟩

/-! ## C10: categorical features on missing / present pickups -/

/-- C10: both `categorize_time_of_day` and `categorize_day_type` return
the sentinel "Unknown" on a missing pickup timestamp, and on every
present pickup `categorize_day_type` returns "Weekend" exactly for
weekday 5 or 6 and "Weekday" exactly for weekdays 0–4. -/
theorem C10_unknown_and_day_type (dt : PyDateTime) :
    FeatureEngineer.categorize_time_of_day none = "Unknown" ∧
    FeatureEngineer.categorize_day_type none = "Unknown" ∧
    (FeatureEngineer.categorize_day_type (some dt) = "Weekend" ↔
      (dt.weekday : ℕ) = 5 ∨ (dt.weekday : ℕ) = 6) ∧
    (FeatureEngineer.categorize_day_type (some dt) = "Weekday" ↔
      (dt.weekday : ℕ) ≤ 4) := by
  have hlt : (dt.weekday : ℕ) < 7 := dt.weekday.isLt
  refine ⟨rfl, rfl, ?_, ?_⟩ <;>
    simp only [FeatureEngineer.categorize_day_type] <;>
    split_ifs with h <;> simp_all <;> omega

/-! ## C6: statistical primitives -/

namespace ManualAlgorithm

theorem countValid_le_length (values : List Val) :
    countValid values ≤ values.length :=
  List.length_filter_le _ _

/-- `calculate_mean` depends only on the valid entries: it is 0 when no
entry is valid and the valid sum over the valid count otherwise. -/
theorem calculate_mean_eq (values : List Val) :
    calculate_mean values =
      if countValid values = 0 then 0
      else sumValid values / countValid values := by
  unfold calculate_mean
  by_cases h : values = []
  · subst h
    simp [countValid]
  · simp only [h, if_false]
    rcases Nat.eq_zero_or_pos (countValid values) with h0 | h1
    · simp [h0]
    · simp [h1, Nat.pos_iff_ne_zero.mp h1]

/-- `calculate_std_dev` depends only on the valid entries: the initial
`len(values) < 2` guard is subsumed by the valid-count guard. -/
theorem calculate_std_dev_eq (values : List Val) (mean : ℚ) :
    calculate_std_dev values mean =
      if countValid values < 2 then 0
      else Real.sqrt
        ((squaredDiffs values mean / (countValid values - 1 : ℕ) : ℚ) : ℝ) := by
  unfold calculate_std_dev
  by_cases h : values = [] ∨ values.length < 2
  · have hc : countValid values < 2 := by
      have h1 := countValid_le_length values
      rcases h with h | h
      · subst h; simp [countValid]
      · omega
    simp [h, hc]
  · simp [h]

theorem countValid_cons_null (values : List Val) :
    countValid (Val.null :: values) = countValid values := rfl

theorem countValid_cons_nan (values : List Val) :
    countValid (Val.nan :: values) = countValid values := rfl

theorem sumValid_cons_null (values : List Val) :
    sumValid (Val.null :: values) = sumValid values := rfl

theorem sumValid_cons_nan (values : List Val) :
    sumValid (Val.nan :: values) = sumValid values := rfl

theorem squaredDiffs_cons_null (values : List Val) (m : ℚ) :
    squaredDiffs (Val.null :: values) m = squaredDiffs values m := rfl

theorem squaredDiffs_cons_nan (values : List Val) (m : ℚ) :
    squaredDiffs (Val.nan :: values) m = squaredDiffs values m := rfl

end ManualAlgorithm

/-- C6: the statistical primitives of `manual_algorithm.py` — the mean
of an empty list (or of a list with no valid entries) is 0.0; the sample
standard deviation of a single value (or of any list with fewer than two
valid entries) is 0.0; for at least two valid entries the variance uses
the Bessel-corrected (n−1) denominator over the valid entries; and
null/NaN entries are skipped by both passes. -/
theorem C6_stat_primitives :
    ManualAlgorithm.calculate_mean [] = 0 ∧
    (∀ values : List Val, ManualAlgorithm.countValid values = 0 →
      ManualAlgorithm.calculate_mean values = 0) ∧
    (∀ (v : Val) (m : ℚ), ManualAlgorithm.calculate_std_dev [v] m = 0) ∧
    (∀ (values : List Val) (m : ℚ), ManualAlgorithm.countValid values < 2 →
      ManualAlgorithm.calculate_std_dev values m = 0) ∧
    (∀ (values : List Val) (m : ℚ), 2 ≤ ManualAlgorithm.countValid values →
      ManualAlgorithm.calculate_std_dev values m =
        Real.sqrt ((ManualAlgorithm.squaredDiffs values m /
          (ManualAlgorithm.countValid values - 1 : ℕ) : ℚ) : ℝ)) ∧
    (∀ (x : Val) (values : List Val) (m : ℚ),
      x = Val.null ∨ x = Val.nan →
        ManualAlgorithm.calculate_mean (x :: values) =
          ManualAlgorithm.calculate_mean values ∧
        ManualAlgorithm.calculate_std_dev (x :: values) m =
          ManualAlgorithm.calculate_std_dev values m) := by
  refine ⟨rfl, ?_, ?_, ?_, ?_, ?_⟩
  · intro values h
    rw [ManualAlgorithm.calculate_mean_eq, if_pos h]
  · intro v m
    rw [ManualAlgorithm.calculate_std_dev_eq]
    have h1 := ManualAlgorithm.countValid_le_length [v]
    simp only [List.length_singleton] at h1
    rw [if_pos (by omega)]
  · intro values m h
    rw [ManualAlgorithm.calculate_std_dev_eq, if_pos h]
  · intro values m h
    rw [ManualAlgorithm.calculate_std_dev_eq, if_neg (by omega)]
  · intro x values m hx
    have hmean : ManualAlgorithm.calculate_mean (x :: values) =
        ManualAlgorithm.calculate_mean values := by
      rcases hx with rfl | rfl <;>
        rw [ManualAlgorithm.calculate_mean_eq, ManualAlgorithm.calculate_mean_eq] <;>
        first
        | rw [ManualAlgorithm.countValid_cons_null,
            ManualAlgorithm.sumValid_cons_null]
        | rw [ManualAlgorithm.countValid_cons_nan,
            ManualAlgorithm.sumValid_cons_nan]
    refine ⟨hmean, ?_⟩
    rcases hx with rfl | rfl <;>
      rw [ManualAlgorithm.calculate_std_dev_eq, ManualAlgorithm.calculate_std_dev_eq] <;>
      first
      | rw [ManualAlgorithm.countValid_cons_null,
          ManualAlgorithm.squaredDiffs_cons_null]
      | rw [ManualAlgorithm.countValid_cons_nan,
          ManualAlgorithm.squaredDiffs_cons_nan]

/-- C6 witness: the primitives evaluated on concrete lists — a lone null
(mean 0), a single valid value (std 0), and two valid values 1, 3 with
Bessel denominator 1. -/
theorem C6_stat_primitives_witness :
    ManualAlgorithm.countValid [Val.null] = 0 ∧
    ManualAlgorithm.calculate_mean [Val.null] = 0 ∧
    ManualAlgorithm.countValid [Val.num 5] < 2 ∧
    ManualAlgorithm.calculate_std_dev [Val.num 5] 5 = 0 ∧
    2 ≤ ManualAlgorithm.countValid [Val.num 1, Val.num 3] ∧
    ManualAlgorithm.calculate_std_dev [Val.num 1, Val.num 3] 2 =
      Real.sqrt ((ManualAlgorithm.squaredDiffs [Val.num 1, Val.num 3] 2 /
        (ManualAlgorithm.countValid [Val.num 1, Val.num 3] - 1 : ℕ) : ℚ) : ℝ) :=
  ⟨by decide, C6_stat_primitives.2.1 [Val.null] (by decide), by decide,
   C6_stat_primitives.2.2.2.1 [Val.num 5] 5 (by decide), by decide,
   C6_stat_primitives.2.2.2.2.1 [Val.num 1, Val.num 3] 2 (by decide)⟩

/-! ## Outlier-detector lemmas (C2, C9) -/

open ManualAlgorithm

theorem calculate_z_score_eq (v m : ℚ) (s : ℝ) :
    calculate_z_score v m s = ((v : ℝ) - (m : ℝ)) / s := by
  unfold calculate_z_score
  split_ifs with h
  · rw [h, div_zero]
  · rfl

theorem columnEntries_column (th : ℚ) (col : String) (values : List Val)
    (mean : ℚ) (std : ℝ) (idx : ℕ) (e : FlagEntry)
    (h : e ∈ columnEntries th col values mean std idx) : e.column = col := by
  simp only [columnEntries] at h
  rcases hv : values[idx]? with _ | val <;> rw [hv] at h
  · simp at h
  · cases val with
    | null => simp at h
    | nan => simp at h
    | num q =>
      by_cases hz : |calculate_z_score q mean std| > (th : ℝ)
      · simp only [hz, if_true, List.mem_singleton] at h
        rw [h]
      · simp [hz] at h

theorem colsEntries_column_mem (th : ℚ) (data : String → Option (List Val)) :
    ∀ (cols : List String) (idx : ℕ) (e : FlagEntry),
      e ∈ colsEntries th data cols idx → e.column ∈ cols := by
  intro cols
  induction cols with
  | nil => intro idx e h; simp [colsEntries] at h
  | cons col rest ih =>
    intro idx e h
    simp only [colsEntries] at h
    rw [List.mem_append] at h
    rcases h with h | h
    · rcases hdc : data col with _ | vals <;> rw [hdc] at h
      · simp at h
      · rw [columnEntries_column _ _ _ _ _ _ _ h]
        exact List.mem_cons_self _ _
    · exact List.mem_cons_of_mem _ (ih idx e h)

theorem columnEntries_flag_iff (th : ℚ) (c : String) (values : List Val)
    (idx : ℕ) (v : ℚ) (hv : values[idx]? = some (Val.num v))
    (mean : ℚ) (std : ℝ) :
    (∃ e ∈ columnEntries th c values mean std idx, e.column = c) ↔
      |calculate_z_score v mean std| > (th : ℝ) := by
  simp only [columnEntries, hv]
  by_cases hz : |calculate_z_score v mean std| > (th : ℝ)
  · simp [hz]
  · simp [hz]

theorem colsEntries_flag_iff (th : ℚ) (data : String → Option (List Val))
    (c : String) (values : List Val) (idx : ℕ) (v : ℚ)
    (hd : data c = some values) (hv : values[idx]? = some (Val.num v)) :
    ∀ cols : List String, c ∈ cols →
      ((∃ e ∈ colsEntries th data cols idx, e.column = c) ↔
        |calculate_z_score v (calculate_mean values)
          (calculate_std_dev values (calculate_mean values))| > (th : ℝ)) := by
  intro cols
  induction cols with
  | nil => intro h; exact absurd h (List.not_mem_nil c)
  | cons col rest ih =>
    intro hc
    constructor
    · rintro ⟨e, he, hec⟩
      simp only [colsEntries] at he
      rw [List.mem_append] at he
      rcases he with he | he
      · have hcc : col = c := by
          rcases hdc : data col with _ | vals <;> rw [hdc] at he
          · simp at he
          · rw [← hec]
            exact (columnEntries_column _ _ _ _ _ _ _ he).symm
        subst hcc
        rw [hd] at he
        exact (columnEntries_flag_iff th col values idx v hv _ _).mp ⟨e, he, hec⟩
      · by_cases hcr : c ∈ rest
        · exact (ih hcr).mp ⟨e, he, hec⟩
        · exact absurd (hec ▸ colsEntries_column_mem th data rest idx e he) hcr
    · intro hz
      by_cases hcol : col = c
      · subst hcol
        obtain ⟨e, he, hec⟩ :=
          (columnEntries_flag_iff th col values idx v hv
            (calculate_mean values)
            (calculate_std_dev values (calculate_mean values))).mpr hz
        refine ⟨e, ?_, hec⟩
        simp only [colsEntries]
        rw [List.mem_append]
        left
        rw [hd]
        exact he
      · have hcr : c ∈ rest := by
          rcases List.mem_cons.mp hc with h | h
          · exact absurd h.symm hcol
          · exact h
        obtain ⟨e, he, hec⟩ := (ih hcr).mpr hz
        refine ⟨e, ?_, hec⟩
        simp only [colsEntries]
        rw [List.mem_append]
        right
        exact he

theorem detectStep_fst (th : ℚ) (data : String → Option (List Val))
    (acc : (ℕ → List FlagEntry) × DetectorState) (col : String) (idx : ℕ) :
    (detectStep th data acc col).1 idx =
      acc.1 idx ++ (match data col with
        | none => []
        | some values =>
          columnEntries th col values (calculate_mean values)
            (calculate_std_dev values (calculate_mean values)) idx) := by
  unfold detectStep
  rcases hdc : data col with _ | vals <;> simp [hdc]

theorem detectStep_threshold (th : ℚ) (data : String → Option (List Val))
    (acc : (ℕ → List FlagEntry) × DetectorState) (col : String) :
    (detectStep th data acc col).2.threshold = acc.2.threshold := by
  unfold detectStep
  rcases hdc : data col with _ | vals <;> simp [hdc]

theorem detect_foldl_fst (th : ℚ) (data : String → Option (List Val)) :
    ∀ (cols : List String) (f : ℕ → List FlagEntry) (st : DetectorState)
      (idx : ℕ),
      (cols.foldl (detectStep th data) (f, st)).1 idx =
        f idx ++ colsEntries th data cols idx := by
  intro cols
  induction cols with
  | nil => intro f st idx; simp [colsEntries]
  | cons col rest ih =>
    intro f st idx
    rw [List.foldl_cons]
    have h1 : detectStep th data (f, st) col =
        ((detectStep th data (f, st) col).1,
         (detectStep th data (f, st) col).2) := rfl
    rw [h1, ih, detectStep_fst]
    simp [colsEntries, List.append_assoc]

theorem detect_foldl_threshold (th : ℚ) (data : String → Option (List Val)) :
    ∀ (cols : List String) (f : ℕ → List FlagEntry) (st : DetectorState),
      (cols.foldl (detectStep th data) (f, st)).2.threshold = st.threshold := by
  intro cols
  induction cols with
  | nil => intro f st; rfl
  | cons col rest ih =>
    intro f st
    rw [List.foldl_cons]
    have h1 : detectStep th data (f, st) col =
        ((detectStep th data (f, st) col).1,
         (detectStep th data (f, st) col).2) := rfl
    rw [h1, ih, detectStep_threshold]

theorem detect_outliers_apply (st : DetectorState)
    (data : String → Option (List Val)) (cols : List String) (idx : ℕ) :
    (detect_outliers st data cols).1 idx =
      colsEntries st.threshold data cols idx := by
  unfold detect_outliers
  rw [detect_foldl_fst]
  simp

/-! ## C2: outlier flagging criterion -/

/-- C2: for every dataset, monitored column c and threshold t > 0, the
detector flags the non-null non-NaN value v at row idx of column c iff
|(v − mean_c)/std_c| > t, with mean_c the column mean and std_c the
sample standard deviation computed by the code; and when std_c = 0 the
z-score of v is 0 and v is never flagged (no division fault occurs). -/
theorem C2_flag_iff (t : ℚ) (stats : String → Option ManualAlgorithm.ColStats)
    (data : String → Option (List Val)) (cols : List String) (c : String)
    (values : List Val) (idx : ℕ) (v : ℚ)
    (ht : 0 < t) (hc : c ∈ cols) (hd : data c = some values)
    (hv : values[idx]? = some (Val.num v)) :
    ((∃ e ∈ (ManualAlgorithm.detect_outliers ⟨t, stats⟩ data cols).1 idx,
        e.column = c) ↔
      |((v : ℝ) - (ManualAlgorithm.calculate_mean values : ℝ)) /
        ManualAlgorithm.calculate_std_dev values
          (ManualAlgorithm.calculate_mean values)| > (t : ℝ)) ∧
    (ManualAlgorithm.calculate_std_dev values
        (ManualAlgorithm.calculate_mean values) = 0 →
      ManualAlgorithm.calculate_z_score v
        (ManualAlgorithm.calculate_mean values)
        (ManualAlgorithm.calculate_std_dev values
          (ManualAlgorithm.calculate_mean values)) = 0 ∧
      ¬∃ e ∈ (ManualAlgorithm.detect_outliers ⟨t, stats⟩ data cols).1 idx,
          e.column = c) := by
  have hmem := colsEntries_flag_iff t data c values idx v hd hv cols hc
  have happ := detect_outliers_apply ⟨t, stats⟩ data cols idx
  have hiff : (∃ e ∈ (detect_outliers ⟨t, stats⟩ data cols).1 idx,
      e.column = c) ↔
      |((v : ℝ) - (calculate_mean values : ℝ)) /
        calculate_std_dev values (calculate_mean values)| > (t : ℝ) := by
    rw [happ]
    rw [calculate_z_score_eq] at hmem
    exact hmem
  refine ⟨hiff, ?_⟩
  intro hstd
  refine ⟨?_, ?_⟩
  · unfold ManualAlgorithm.calculate_z_score
    rw [if_pos hstd]
  · intro hex
    have h1 := hiff.mp hex
    rw [hstd, div_zero, abs_zero] at h1
    have h2 : (0 : ℝ) < (t : ℝ) := by exact_mod_cast ht
    linarith

/-- C2 witness: the flag criterion applied to the concrete column
"fare" = [−1, 0, 1] (mean 0, sample std 1) at index 2, threshold 1. -/
theorem C2_flag_iff_witness :
    (0 : ℚ) < 1 ∧ "fare" ∈ ["fare"] ∧
    (((∃ e ∈ (ManualAlgorithm.detect_outliers ⟨1, fun _ => none⟩
        (fun s => if s = "fare" then
          some [Val.num (-1), Val.num 0, Val.num 1] else none)
        ["fare"]).1 2, e.column = "fare") ↔
      |(((1 : ℚ) : ℝ) -
          (ManualAlgorithm.calculate_mean
            [Val.num (-1), Val.num 0, Val.num 1] : ℝ)) /
        ManualAlgorithm.calculate_std_dev
          [Val.num (-1), Val.num 0, Val.num 1]
          (ManualAlgorithm.calculate_mean
            [Val.num (-1), Val.num 0, Val.num 1])| > ((1 : ℚ) : ℝ)) ∧
      (ManualAlgorithm.calculate_std_dev [Val.num (-1), Val.num 0, Val.num 1]
          (ManualAlgorithm.calculate_mean
            [Val.num (-1), Val.num 0, Val.num 1]) = 0 →
        ManualAlgorithm.calculate_z_score 1
          (ManualAlgorithm.calculate_mean
            [Val.num (-1), Val.num 0, Val.num 1])
          (ManualAlgorithm.calculate_std_dev
            [Val.num (-1), Val.num 0, Val.num 1]
            (ManualAlgorithm.calculate_mean
              [Val.num (-1), Val.num 0, Val.num 1])) = 0 ∧
        ¬∃ e ∈ (ManualAlgorithm.detect_outliers ⟨1, fun _ => none⟩
            (fun s => if s = "fare" then
              some [Val.num (-1), Val.num 0, Val.num 1] else none)
            ["fare"]).1 2, e.column = "fare")) :=
  ⟨by norm_num, by simp,
   C2_flag_iff 1 (fun _ => none)
     (fun s => if s = "fare" then
       some [Val.num (-1), Val.num 0, Val.num 1] else none)
     ["fare"] "fare" [Val.num (-1), Val.num 0, Val.num 1] 2 1
     (by norm_num) (by simp) (by simp) (by simp)⟩

/-! ## C9: two-run determinism of detect_outliers -/

/-- C9: calling `detect_outliers` twice with the same (data, columns)
arguments on the same detector instance yields identical outlier
mappings — the `self.stats` dictionary written by the first call never
influences the result of the second call, and more generally the
mapping is independent of the accumulated statistics state. -/
theorem C9_detect_deterministic (st : ManualAlgorithm.DetectorState)
    (data : String → Option (List Val)) (cols : List String) :
    (ManualAlgorithm.detect_outliers
        (ManualAlgorithm.detect_outliers st data cols).2 data cols).1 =
      (ManualAlgorithm.detect_outliers st data cols).1 ∧
    ∀ stats2 : String → Option ManualAlgorithm.ColStats,
      (ManualAlgorithm.detect_outliers ⟨st.threshold, stats2⟩ data cols).1 =
        (ManualAlgorithm.detect_outliers st data cols).1 := by
  have hth : (detect_outliers st data cols).2.threshold = st.threshold := by
    unfold ManualAlgorithm.detect_outliers
    exact detect_foldl_threshold _ _ _ _ _
  constructor
  · funext idx
    rw [detect_outliers_apply, detect_outliers_apply, hth]
  · intro stats2
    funext idx
    rw [detect_outliers_apply, detect_outliers_apply]

/-! ## C1: backfill pagination -/

theorem fetchPage_length (trips : List ℕ) (B o : ℕ) :
    (PopulateDb.fetchPage trips B o).length = min B (trips.length - o) := by
  simp [PopulateDb.fetchPage]

theorem backfillPages_stop {trips : List ℕ} {B o : ℕ}
    (h : ¬o < trips.length) :
    PopulateDb.backfillPages trips B o = [] := by
  rw [PopulateDb.backfillPages]
  simp [h]

theorem backfillPages_step {trips : List ℕ} {B o : ℕ}
    (h : o < trips.length) (hp : PopulateDb.fetchPage trips B o ≠ []) :
    PopulateDb.backfillPages trips B o =
      PopulateDb.fetchPage trips B o ::
        PopulateDb.backfillPages trips B (o + B) := by
  rw [PopulateDb.backfillPages]
  simp [h, hp]

/-- With the persisted relation unchanged, the backfill loop never
fetches an empty page: its guard `offset < trip_count` stops it first. -/
theorem backfillPages_no_empty (trips : List ℕ) (B : ℕ) (hB : 0 < B) :
    ∀ o, [] ∉ PopulateDb.backfillPages trips B o := by
  have main : ∀ n o, trips.length - o ≤ n →
      [] ∉ PopulateDb.backfillPages trips B o := by
    intro n
    induction n with
    | zero =>
      intro o hn
      have h : ¬o < trips.length := by omega
      rw [backfillPages_stop h]
      simp
    | succ n ih =>
      intro o hn
      by_cases h : o < trips.length
      · have hp : PopulateDb.fetchPage trips B o ≠ [] := by
          intro hnil
          have hlen := fetchPage_length trips B o
          rw [hnil] at hlen
          simp only [List.length_nil] at hlen
          have h0 := Nat.min_eq_zero_iff.mp hlen.symm
          omega
        rw [backfillPages_step h hp]
        intro hmem
        rcases List.mem_cons.mp hmem with hmem | hmem
        · exact hp hmem.symm
        · exact ih (o + B) (by omega) hmem
      · rw [backfillPages_stop h]
        simp
  intro o
  exact main (trips.length - o) o le_rfl

/-- Over a stable 120,000-row relation with page size 50,000, the loop
fetches pages of sizes 50k, 50k, 20k and then exits via its guard. -/
theorem backfillPages_trace_120k :
    List.map List.length
      (PopulateDb.backfillPages (List.range 120000) 50000 0) =
      [50000, 50000, 20000] := by
  have hlen : (List.range 120000).length = 120000 := List.length_range _
  have h0 : (0 : ℕ) < (List.range 120000).length := by rw [hlen]; norm_num
  have h1 : (50000 : ℕ) < (List.range 120000).length := by rw [hlen]; norm_num
  have h2 : (100000 : ℕ) < (List.range 120000).length := by rw [hlen]; norm_num
  have h3 : ¬(150000 : ℕ) < (List.range 120000).length := by rw [hlen]; norm_num
  have hp0 : (PopulateDb.fetchPage (List.range 120000) 50000 0).length = 50000 := by
    rw [fetchPage_length, hlen]; omega
  have hp1 : (PopulateDb.fetchPage (List.range 120000) 50000 50000).length = 50000 := by
    rw [fetchPage_length, hlen]; omega
  have hp2 : (PopulateDb.fetchPage (List.range 120000) 50000 100000).length = 20000 := by
    rw [fetchPage_length, hlen]; omega
  have hne0 : PopulateDb.fetchPage (List.range 120000) 50000 0 ≠ [] :=
    List.length_pos.mp (by rw [hp0]; norm_num)
  have hne1 : PopulateDb.fetchPage (List.range 120000) 50000 50000 ≠ [] :=
    List.length_pos.mp (by rw [hp1]; norm_num)
  have hne2 : PopulateDb.fetchPage (List.range 120000) 50000 100000 ≠ [] :=
    List.length_pos.mp (by rw [hp2]; norm_num)
  have e1 : PopulateDb.backfillPages (List.range 120000) 50000 0 =
      PopulateDb.fetchPage (List.range 120000) 50000 0 ::
        PopulateDb.backfillPages (List.range 120000) 50000 50000 := by
    rw [backfillPages_step h0 hne0]
  have e2 : PopulateDb.backfillPages (List.range 120000) 50000 50000 =
      PopulateDb.fetchPage (List.range 120000) 50000 50000 ::
        PopulateDb.backfillPages (List.range 120000) 50000 100000 := by
    rw [backfillPages_step h1 hne1]
  have e3 : PopulateDb.backfillPages (List.range 120000) 50000 100000 =
      PopulateDb.fetchPage (List.range 120000) 50000 100000 ::
        PopulateDb.backfillPages (List.range 120000) 50000 150000 := by
    rw [backfillPages_step h2 hne2]
  have e4 : PopulateDb.backfillPages (List.range 120000) 50000 150000 = [] :=
    backfillPages_stop h3
  rw [e1, e2, e3, e4]
  simp [hp0, hp1, hp2]

/-- C1 counterexample: over a stable 120,000-row relation with page size
50,000 the loop performs exactly three page reads and no read ever
returns an empty page — the claimed fourth, empty read never happens;
termination comes from the `while offset < trip_count` guard
(offset 150,000 ≥ 120,000), i.e. from arithmetic over the pre-read total. -/
theorem C1_counterexample :
    List.map List.length
      (PopulateDb.backfillPages (List.range 120000) 50000 0) =
      [50000, 50000, 20000] ∧
    (PopulateDb.backfillPages (List.range 120000) 50000 0).length = 3 ∧
    [] ∉ PopulateDb.backfillPages (List.range 120000) 50000 0 := by
  refine ⟨backfillPages_trace_120k, ?_,
    backfillPages_no_empty _ _ (by norm_num) 0⟩
  have h := congrArg List.length backfillPages_trace_120k
  simpa using h

/-- C1 (amended): for 120,000 rows and page size 50,000 the backfill
performs exactly three page reads (50k, 50k, 20k) and stops because the
`while offset < trip_count` guard fails at offset 150,000 — arithmetic
over the pre-read total; with the relation unchanged it never reaches
the empty-page break, which only triggers if rows were concurrently
removed. -/
theorem C1_amended_backfill (trips : List ℕ) (B : ℕ) (hB : 0 < B) :
    [] ∉ PopulateDb.backfillPages trips B 0 ∧
    List.map List.length
      (PopulateDb.backfillPages (List.range 120000) 50000 0) =
      [50000, 50000, 20000] :=
  ⟨backfillPages_no_empty trips B hB 0, backfillPages_trace_120k⟩

/-- C1 witness: the amended backfill theorem at a one-row relation with
page size 1. -/
theorem C1_amended_backfill_witness :
    0 < 1 ∧ [] ∉ PopulateDb.backfillPages [0] 1 0 :=
  ⟨Nat.one_pos, (C1_amended_backfill [0] 1 Nat.one_pos).1⟩

/-! ## C8: ingestion error handling -/

theorem ingest_foldl_filterMap {α : Type} (B : ℕ) :
    ∀ (rows : List (Option α)) (s : PopulateDb.IngestState α),
      rows.foldl (PopulateDb.ingestStep B) s =
        ((rows.filterMap id).map some).foldl (PopulateDb.ingestStep B) s := by
  intro rows
  induction rows with
  | nil => intro s; rfl
  | cons r rest ih =>
    intro s
    cases r with
    | none =>
      have hstep : PopulateDb.ingestStep B s none = s := rfl
      rw [List.foldl_cons, hstep, ih]
      simp
    | some a =>
      rw [List.foldl_cons, ih]
      simp [List.foldl_cons]

theorem ingest_foldl_contents {α : Type} (B : ℕ) :
    ∀ (rows : List (Option α)) (s : PopulateDb.IngestState α),
      (rows.foldl (PopulateDb.ingestStep B) s).inserted ++
        (rows.foldl (PopulateDb.ingestStep B) s).batch_data =
      s.inserted ++ s.batch_data ++ rows.filterMap id := by
  intro rows
  induction rows with
  | nil => intro s; simp
  | cons r rest ih =>
    intro s
    rw [List.foldl_cons, ih]
    cases r with
    | none => simp [PopulateDb.ingestStep]
    | some a =>
      by_cases hfull : B ≤ s.batch_data.length + 1 <;>
        simp [PopulateDb.ingestStep, hfull, List.append_assoc]

theorem ingest_foldl_total {α : Type} (B : ℕ) :
    ∀ (rows : List (Option α)) (s : PopulateDb.IngestState α),
      (rows.foldl (PopulateDb.ingestStep B) s).total_inserted +
        (rows.foldl (PopulateDb.ingestStep B) s).batch_data.length =
      s.total_inserted + s.batch_data.length + (rows.filterMap id).length := by
  intro rows
  induction rows with
  | nil => intro s; simp
  | cons r rest ih =>
    intro s
    rw [List.foldl_cons, ih]
    cases r with
    | none => simp [PopulateDb.ingestStep]
    | some a =>
      by_cases hfull : B ≤ s.batch_data.length + 1 <;>
        simp [PopulateDb.ingestStep, hfull] <;> omega

theorem ingestLoop_spec {α : Type} (B : ℕ) (rows : List (Option α)) :
    (PopulateDb.ingestLoop B rows).inserted = rows.filterMap id ∧
    (PopulateDb.ingestLoop B rows).total_inserted =
      (rows.filterMap id).length := by
  have hc := ingest_foldl_contents B rows ⟨[], 0, []⟩
  have ht := ingest_foldl_total B rows ⟨[], 0, []⟩
  simp only [List.nil_append, List.length_nil, Nat.add_zero, Nat.zero_add] at hc ht
  unfold PopulateDb.ingestLoop
  by_cases hbe :
      (rows.foldl (PopulateDb.ingestStep B) ⟨[], 0, []⟩).batch_data.isEmpty
  · have hb : (rows.foldl (PopulateDb.ingestStep B) ⟨[], 0, []⟩).batch_data = [] := by
      simpa using hbe
    rw [hb] at hc ht
    simp only [List.append_nil] at hc
    simp only [List.length_nil, Nat.add_zero] at ht
    simp [hbe, hc, ht]
  · simp [hbe, hc, ht]

/-- C8 counterexample: after ingesting a malformed row followed by a
good row, the loop state (buffer, insert counter, committed rows) is
identical to the state after ingesting the good row alone, and the only
counter, `total_inserted`, is 1 — no count of dropped rows is kept
anywhere in the observable state. -/
theorem C8_counterexample :
    PopulateDb.ingestLoop 50000 [none, some 7] =
      PopulateDb.ingestLoop 50000 [some (7 : ℕ)] ∧
    (PopulateDb.ingestLoop 50000 [none, some (7 : ℕ)]).total_inserted = 1 := by
  constructor <;> rfl

/-- C8 (amended): every per-row parsing failure in the Step 3 ingestion
loop is caught and the offending row silently dropped — the loop is
total, commits exactly the successfully parsed rows in order, and never
aborts on a row-level error (only storage-layer failures, outside this
model, abort the run); however NO count of dropped rows is kept: the
only counter counts inserted rows and the final state is the same as if
the bad rows had never been present. -/
theorem C8_amended_ingestion {α : Type} (rows : List (Option α)) (B : ℕ) :
    (PopulateDb.ingestLoop B rows).inserted = rows.filterMap id ∧
    (PopulateDb.ingestLoop B rows).total_inserted =
      (rows.filterMap id).length ∧
    PopulateDb.ingestLoop B rows =
      PopulateDb.ingestLoop B ((rows.filterMap id).map some) := by
  refine ⟨(ingestLoop_spec B rows).1, (ingestLoop_spec B rows).2, ?_⟩
  unfold PopulateDb.ingestLoop
  rw [ingest_foldl_filterMap B rows]
